import Mathlib

/-!
Verification of the HomeFixConnect job/bid lifecycle core.

Shallow embedding of the backend controllers (`jobController.js`,
`bidController.js`) over an explicit database state.  JavaScript
truthiness of request-body fields is modelled explicitly: an absent or
falsy field is `none` (for strings, the empty string is falsy; for the
numeric `budget`/`amount` fields, the JSON number `0` is falsy and is
modelled as `none`, while a truthy numeric input carrying the value `q`
is `some q`).  Wall-clock `updated_at` timestamps are not modelled.
Supabase row ids are modelled as naturals; the `isValidUUID` guard on a
present id always passes in the model.  Each distinct error response of
the source is one constructor of `Err`.
-/

namespace HomeFix

inductive Role where
  | customer
  | contractor
deriving DecidableEq, Repr

inductive JStatus where
  | open_
  | in_progress
  | completed
  | cancelled
deriving DecidableEq, Repr

inductive BStatus where
  | pending
  | accepted
  | rejected
deriving DecidableEq, Repr

structure Job where
  id : Nat
  customer_id : Nat
  contractor_id : Option Nat
  title : String
  description : String
  category : String
  location : Option String
  budget : Rat
  images : Option (List String)
  status : JStatus
deriving DecidableEq, Repr

structure Bid where
  id : Nat
  job_id : Nat
  contractor_id : Nat
  amount : Rat
  proposal : Option String
  estimated_days : Option Nat
  status : BStatus
deriving DecidableEq, Repr

structure DB where
  jobs : List Job
  bids : List Bid
deriving DecidableEq, Repr

structure Caller where
  userId : Nat
  role : Role
deriving DecidableEq, Repr

/-- One constructor per distinct error response in the two controllers. -/
inductive Err where
  | missingFields
  | notCustomer
  | invalidAmount
  | notContractor
  | jobNotFound
  | bidNotFound
  | jobNotOpenBid
  | ownJob
  | duplicateBid
  | notJobOwner
  | notBidOwner
  | jobNotOpenAssign
  | invalidTransition
  | noContractorAssigned
  | editNotOpen
  | bidNotPending
  | bidJobNotOpen
  | updJobFailed
  | updBidFailed
deriving DecidableEq, Repr

/-- JS truthiness of an optional string field (empty string is falsy). -/
def tstr : Option String → Bool
  | some s => s ≠ ""
  | none => false

/-- JS truthiness of the optional numeric field (`0` is falsy and is
modelled as `none`; any provided value is truthy). -/
def tnum : Option Rat → Bool
  | some _ => true
  | none => false

/-! ### createJob (jobController.createJob) -/

structure CreateJobInput where
  title : String
  description : String
  category : String
  location : Option String
  budget : Option Rat
  images : Option (List String)
deriving DecidableEq, Repr

/-- `createJob` from `jobController.js`: truthiness validation of
`title`, `description`, `category`, `budget`; then the role check; then
the insert of a row with `status = 'open'` and no contractor.  `newId`
stands for the id the database generates for the inserted row. -/
def createJob (caller : Caller) (inp : CreateJobInput) (db : DB) (newId : Nat) :
    Except Err Job × DB :=
  if ¬ (inp.title ≠ "" ∧ inp.description ≠ "" ∧ inp.category ≠ "" ∧ tnum inp.budget) then
    (Except.error Err.missingFields, db)
  else if caller.role ≠ Role.customer then
    (Except.error Err.notCustomer, db)
  else
    let job : Job :=
      { id := newId
        customer_id := caller.userId
        contractor_id := none
        title := inp.title
        description := inp.description
        category := inp.category
        location := inp.location
        budget := inp.budget.getD 0
        images := inp.images
        status := JStatus.open_ }
    (Except.ok job, { db with jobs := db.jobs ++ [job] })

/-! ### updateJob (jobController.updateJob) -/

/-- A PUT /jobs/:id body.  `location` distinguishes absent
(`none`) from provided (`some v`, `v = none` being JSON null), because
the source applies it on `location !== undefined`.  `images` is truthy
exactly when provided (a JS array, even empty, is truthy). -/
structure UpdateJobInput where
  title : Option String
  description : Option String
  category : Option String
  location : Option (Option String)
  budget : Option Rat
  status : Option JStatus
  images : Option (List String)
deriving DecidableEq, Repr

/-- The `validTransitions` table of `jobController.updateJob`. -/
def validTransitions : JStatus → List JStatus
  | JStatus.open_ => [JStatus.cancelled, JStatus.in_progress]
  | JStatus.in_progress => [JStatus.completed, JStatus.cancelled]
  | JStatus.completed => []
  | JStatus.cancelled => []

/-- JS truthiness of a provided `location` value (null and "" falsy). -/
def tloc : Option (Option String) → Bool
  | some (some s) => s ≠ ""
  | some none => false
  | none => false

/-- The field edits the source's open-status guard looks at:
`(title || description || category || budget || location)` — note that
`images` is not among them. -/
def hasGuardedEdit (p : UpdateJobInput) : Bool :=
  tstr p.title || tstr p.description || tstr p.category || tnum p.budget || tloc p.location

/-- The `updateData` object built by `updateJob`, applied to a row:
every truthy field overwrites, `location` overwrites whenever provided,
`status` overwrites whenever truthy (even when equal to the current
status). -/
def applyJobPatch (j : Job) (p : UpdateJobInput) : Job :=
  { j with
    title := match p.title with
      | some t => if t = "" then j.title else t
      | none => j.title
    description := match p.description with
      | some d => if d = "" then j.description else d
      | none => j.description
    category := match p.category with
      | some c => if c = "" then j.category else c
      | none => j.category
    location := match p.location with
      | some v => v
      | none => j.location
    budget := match p.budget with
      | some b => b
      | none => j.budget
    status := match p.status with
      | some s => s
      | none => j.status
    images := match p.images with
      | some l => l
      | none => j.images }

/-- `updateJob` from `jobController.js`: fetch and ownership check, then
transition validation only when a truthy `status` differs from the
current one, then the open-status guard over the five guarded fields,
then the row update. -/
def updateJob (caller : Caller) (jobId : Nat) (p : UpdateJobInput) (db : DB) :
    Except Err Job × DB :=
  match db.jobs.find? (fun j => j.id == jobId) with
  | none => (Except.error Err.jobNotFound, db)
  | some existingJob =>
    if existingJob.customer_id ≠ caller.userId then
      (Except.error Err.notJobOwner, db)
    else if (match p.status with
             | some s => decide (s ≠ existingJob.status ∧ s ∉ validTransitions existingJob.status)
             | none => false) then
      (Except.error Err.invalidTransition, db)
    else if (match p.status with
             | some s => decide (s ≠ existingJob.status ∧ s = JStatus.in_progress ∧
                 existingJob.contractor_id = none)
             | none => false) then
      (Except.error Err.noContractorAssigned, db)
    else if existingJob.status ≠ JStatus.open_ ∧ hasGuardedEdit p then
      (Except.error Err.editNotOpen, db)
    else
      (Except.ok (applyJobPatch existingJob p),
       { db with jobs := db.jobs.map (fun j => if j.id == jobId then applyJobPatch j p else j) })

/-! ### createBid (bidController.createBid) -/

/-- A POST /bids body.  `jobId = none` models an absent/falsy job id,
`amount = none` an absent/falsy amount (the JSON number `0` is falsy);
`amount = some q` is a truthy numeric input of value `q` (the string
"0" is truthy and parses to `0`). -/
structure CreateBidInput where
  jobId : Option Nat
  amount : Option Rat
  proposal : Option String
  estimatedDays : Option Nat
deriving DecidableEq, Repr

/-- `createBid` from `bidController.js`: presence check, amount
positivity check, role check, job lookup, open check, self-bid check,
duplicate check, insert of a `pending` row with id `newId`. -/
def createBid (caller : Caller) (inp : CreateBidInput) (db : DB) (newId : Nat) :
    Except Err Bid × DB :=
  match inp.jobId, inp.amount with
  | none, _ => (Except.error Err.missingFields, db)
  | some _, none => (Except.error Err.missingFields, db)
  | some jobId, some amount =>
    if amount ≤ 0 then
      (Except.error Err.invalidAmount, db)
    else if caller.role ≠ Role.contractor then
      (Except.error Err.notContractor, db)
    else
      match db.jobs.find? (fun j => j.id == jobId) with
      | none => (Except.error Err.jobNotFound, db)
      | some job =>
        if job.status ≠ JStatus.open_ then
          (Except.error Err.jobNotOpenBid, db)
        else if job.customer_id = caller.userId then
          (Except.error Err.ownJob, db)
        else if (db.bids.filter (fun b => b.job_id == jobId && b.contractor_id == caller.userId)) ≠ [] then
          (Except.error Err.duplicateBid, db)
        else
          let bid : Bid :=
            { id := newId
              job_id := jobId
              contractor_id := caller.userId
              amount := amount
              proposal := inp.proposal
              estimated_days := inp.estimatedDays
              status := BStatus.pending }
          (Except.ok bid, { db with bids := db.bids ++ [bid] })

/-! ### updateBid (bidController.updateBid) -/

/-- A PUT /bids/:id body.  `amount = none` models an absent/falsy
amount, `some q` a truthy numeric input (applied with no further
validation by the source).  `proposal` and `estimatedDays` distinguish
absent (`none`) from provided (`some v`), as the source applies them on
`!== undefined`. -/
structure UpdateBidInput where
  amount : Option Rat
  proposal : Option (Option String)
  estimatedDays : Option (Option Nat)
deriving DecidableEq, Repr

/-- The `updateData` object built by `updateBid`, applied to a row. -/
def applyBidPatch (b : Bid) (p : UpdateBidInput) : Bid :=
  { b with
    amount := match p.amount with
      | some a => a
      | none => b.amount
    proposal := match p.proposal with
      | some v => v
      | none => b.proposal
    estimated_days := match p.estimatedDays with
      | some v => v
      | none => b.estimated_days }

/-- `updateBid` from `bidController.js`: fetch the bid joined with its
job's status, ownership check, pending check, parent-open check, then
the row update.  A truthy `amount` is applied with no validation. -/
def updateBid (caller : Caller) (bidId : Nat) (p : UpdateBidInput) (db : DB) :
    Except Err Bid × DB :=
  match db.bids.find? (fun b => b.id == bidId) with
  | none => (Except.error Err.bidNotFound, db)
  | some existingBid =>
    match db.jobs.find? (fun j => j.id == existingBid.job_id) with
    | none => (Except.error Err.bidNotFound, db)
    | some job =>
      if existingBid.contractor_id ≠ caller.userId then
        (Except.error Err.notBidOwner, db)
      else if existingBid.status ≠ BStatus.pending then
        (Except.error Err.bidNotPending, db)
      else if job.status ≠ JStatus.open_ then
        (Except.error Err.bidJobNotOpen, db)
      else
        (Except.ok (applyBidPatch existingBid p),
         { db with bids := db.bids.map (fun b => if b.id == bidId then applyBidPatch b p else b) })

/-! ### Bid visibility (bidController.getBidsForJob, jobController.getJobById) -/

/-- A bid as returned to a viewer: the redaction replaces `amount`,
`proposal` and `estimated_days` by null, keeping id, job, contractor
and status. -/
structure BidView where
  id : Nat
  job_id : Nat
  contractor_id : Nat
  status : BStatus
  amount : Option Rat
  proposal : Option String
  estimated_days : Option Nat
deriving DecidableEq, Repr

/-- The unredacted view of a bid. -/
def fullView (b : Bid) : BidView :=
  { id := b.id
    job_id := b.job_id
    contractor_id := b.contractor_id
    status := b.status
    amount := some b.amount
    proposal := b.proposal
    estimated_days := b.estimated_days }

/-- The redacted view: amount, proposal and estimated_days nulled. -/
def redactedView (b : Bid) : BidView :=
  { id := b.id
    job_id := b.job_id
    contractor_id := b.contractor_id
    status := b.status
    amount := none
    proposal := none
    estimated_days := none }

/-- `getBidsForJob` from `bidController.js`: when the viewer is not the
job's owning customer, every bid other than the viewer's own is
redacted. -/
def getBidsForJob (caller : Caller) (jobId : Nat) (db : DB) :
    Except Err (List BidView) :=
  match db.jobs.find? (fun j => j.id == jobId) with
  | none => Except.error Err.jobNotFound
  | some job =>
    let bids := db.bids.filter (fun b => b.job_id == jobId)
    if job.customer_id = caller.userId then
      Except.ok (bids.map fullView)
    else
      Except.ok (bids.map (fun b =>
        if b.contractor_id = caller.userId then fullView b else redactedView b))

/-- The bid list embedded in `getJobById` from `jobController.js`: the
redaction branch runs only when the viewer is not the owning customer,
has role `contractor`, and is not the job's assigned contractor; every
other viewer receives all bids in full. -/
def getJobByIdBids (caller : Caller) (jobId : Nat) (db : DB) :
    Except Err (List BidView) :=
  match db.jobs.find? (fun j => j.id == jobId) with
  | none => Except.error Err.jobNotFound
  | some job =>
    let bids := db.bids.filter (fun b => b.job_id == jobId)
    let isCustomer := job.customer_id = caller.userId
    let isContractor := job.contractor_id = some caller.userId
    if ¬ isCustomer ∧ caller.role = Role.contractor ∧ ¬ isContractor then
      Except.ok (bids.map (fun b =>
        if b.contractor_id = caller.userId then fullView b else redactedView b))
    else
      Except.ok (bids.map fullView)

/-! ### assignContractor (jobController.assignContractor)

The handler is a read/validation phase followed by a sequence of
unconditional row updates; the split mirrors the await boundary between
the last read and the first write.  Each write may be failed by the
persistence layer; the `FailFlags` record selects which of the four
writes fail in a given run (the source checks the errors of the first
two writes, ignores the rollback write's error, and treats the
sibling-rejection write's error as non-fatal). -/

structure FailFlags where
  failJobUpd : Bool
  failBidUpd : Bool
  failRollback : Bool
  failReject : Bool
deriving DecidableEq, Repr

/-- All four persistence writes succeed. -/
def noFail : FailFlags := ⟨false, false, false, false⟩

/-- The read/validation phase of `assignContractor`: fetch the job,
ownership check, open check, fetch the bid by id and job id.  The bid's
own status is never inspected. -/
def acceptBidCheck (caller : Caller) (jobId bidId : Nat) (db : DB) :
    Except Err Bid :=
  match db.jobs.find? (fun j => j.id == jobId) with
  | none => Except.error Err.jobNotFound
  | some job =>
    if job.customer_id ≠ caller.userId then
      Except.error Err.notJobOwner
    else if job.status ≠ JStatus.open_ then
      Except.error Err.jobNotOpenAssign
    else
      match db.bids.find? (fun b => b.id == bidId && b.job_id == jobId) with
      | none => Except.error Err.bidNotFound
      | some bid => Except.ok bid

/-- Write 1: `update jobs set contractor_id = cid, status = 'in_progress'
where id = jobId` — the filter is the job id alone; there is no
status precondition on this update. -/
def updJobAssign (jobId cid : Nat) (db : DB) : DB :=
  { db with jobs := db.jobs.map (fun j =>
      if j.id == jobId then { j with contractor_id := some cid, status := JStatus.in_progress }
      else j) }

/-- The rollback write: `update jobs set contractor_id = null,
status = 'open' where id = jobId`. -/
def updJobRollback (jobId : Nat) (db : DB) : DB :=
  { db with jobs := db.jobs.map (fun j =>
      if j.id == jobId then { j with contractor_id := none, status := JStatus.open_ }
      else j) }

/-- Write 2: `update bids set status = 'accepted' where id = bidId`. -/
def updBidAccept (bidId : Nat) (db : DB) : DB :=
  { db with bids := db.bids.map (fun b =>
      if b.id == bidId then { b with status := BStatus.accepted } else b) }

/-- Write 3: `update bids set status = 'rejected' where job_id = jobId
and id <> bidId` — no filter on the bids' previous status. -/
def updBidsReject (jobId bidId : Nat) (db : DB) : DB :=
  { db with bids := db.bids.map (fun b =>
      if b.job_id == jobId && b.id != bidId then { b with status := BStatus.rejected } else b) }

/-- The write phase of `assignContractor`: job update (fatal on
failure), accepted-bid update (on failure: best-effort rollback of the
job update, then the error), sibling-rejection update (failure
ignored). -/
def acceptBidCommit (jobId bidId : Nat) (bid : Bid) (fl : FailFlags) (db : DB) :
    Except Err Unit × DB :=
  if fl.failJobUpd then
    (Except.error Err.updJobFailed, db)
  else
    let db1 := updJobAssign jobId bid.contractor_id db
    if fl.failBidUpd then
      (Except.error Err.updBidFailed, if fl.failRollback then db1 else updJobRollback jobId db1)
    else
      let db2 := updBidAccept bidId db1
      (Except.ok (), if fl.failReject then db2 else updBidsReject jobId bidId db2)

/-- `assignContractor` from `jobController.js`, as the sequential
composition of the two phases. -/
def assignContractor (caller : Caller) (jobId bidId : Nat) (fl : FailFlags) (db : DB) :
    Except Err Unit × DB :=
  match acceptBidCheck caller jobId bidId db with
  | Except.error e => (Except.error e, db)
  | Except.ok bid => acceptBidCommit jobId bidId bid fl db

/-! ### Sample records used by witnesses and counterexamples -/

/-- A customer account. -/
def cust : Caller := ⟨10, Role.customer⟩

/-- A second customer account, not the owner of `jobOpen`. -/
def otherCust : Caller := ⟨99, Role.customer⟩

/-- A contractor account. -/
def contrA : Caller := ⟨20, Role.contractor⟩

/-- A second contractor account. -/
def contrB : Caller := ⟨21, Role.contractor⟩

/-- An open job owned by `cust`, with no contractor. -/
def jobOpen : Job :=
  { id := 1, customer_id := 10, contractor_id := none, title := "t", description := "d",
    category := "c", location := none, budget := 100, images := none, status := JStatus.open_ }

/-- A pending bid by `contrA` on `jobOpen`. -/
def bidA : Bid :=
  { id := 1, job_id := 1, contractor_id := 20, amount := 90, proposal := none,
    estimated_days := none, status := BStatus.pending }

/-- A pending bid by `contrB` on `jobOpen`. -/
def bidB : Bid :=
  { id := 2, job_id := 1, contractor_id := 21, amount := 80, proposal := none,
    estimated_days := none, status := BStatus.pending }

/-- The open job with the two pending bids. -/
def db0 : DB := ⟨[jobOpen], [bidA, bidB]⟩

/-! ### Theorems about assignContractor -/

/-- With every persistence write succeeding and all four preconditions
met, `assignContractor` is the three-write sequence. -/
theorem assign_ok_eq (caller : Caller) (jobId bidId : Nat) (db : DB) (job : Job) (bid : Bid)
    (hj : db.jobs.find? (fun j => j.id == jobId) = some job)
    (ho : job.customer_id = caller.userId)
    (hs : job.status = JStatus.open_)
    (hb : db.bids.find? (fun b => b.id == bidId && b.job_id == jobId) = some bid) :
    assignContractor caller jobId bidId noFail db =
      (Except.ok (),
       updBidsReject jobId bidId (updBidAccept bidId (updJobAssign jobId bid.contractor_id db))) := by
  simp [assignContractor, acceptBidCheck, acceptBidCommit, noFail, hj, hb, ho, hs]

/-- C1: when the caller is the job's owning customer, the job is open
and the bid belongs to that job, a successful `acceptBid`
(`assignContractor` with all writes succeeding) leaves the job
`in_progress` with `contractor_id` equal to the accepted bid's
contractor, the accepted bid `accepted`, and every other bid on the job
that was `pending` at call time `rejected`. -/
theorem C1_accept_bid_success (caller : Caller) (jobId bidId : Nat) (db : DB)
    (job : Job) (bid : Bid)
    (hj : db.jobs.find? (fun j => j.id == jobId) = some job)
    (ho : job.customer_id = caller.userId)
    (hs : job.status = JStatus.open_)
    (hb : db.bids.find? (fun b => b.id == bidId && b.job_id == jobId) = some bid) :
    (assignContractor caller jobId bidId noFail db).1 = Except.ok () ∧
    (∀ j ∈ (assignContractor caller jobId bidId noFail db).2.jobs, j.id = jobId →
       j.status = JStatus.in_progress ∧ j.contractor_id = some bid.contractor_id) ∧
    (∀ b ∈ (assignContractor caller jobId bidId noFail db).2.bids, b.id = bidId →
       b.status = BStatus.accepted) ∧
    (∀ b ∈ db.bids, b.job_id = jobId → b.id ≠ bidId → b.status = BStatus.pending →
       { b with status := BStatus.rejected } ∈ (assignContractor caller jobId bidId noFail db).2.bids) := by
  rw [assign_ok_eq caller jobId bidId db job bid hj ho hs hb]
  refine ⟨rfl, ?_, ?_, ?_⟩
  · intro j hmem hid
    simp only [updBidsReject, updBidAccept, updJobAssign, List.mem_map] at hmem
    obtain ⟨a, _, rfl⟩ := hmem
    by_cases h : a.id == jobId
    · simp [h]
    · simp [h] at hid ⊢
      exact absurd hid (by simpa using h)
  · intro b hmem hid
    simp only [updBidsReject, updBidAccept, updJobAssign, List.map_map, List.mem_map] at hmem
    obtain ⟨a, _, rfl⟩ := hmem
    by_cases h : a.id == bidId
    · simp [Function.comp, bne, h]
    · by_cases h2 : a.job_id == jobId
      · simp [Function.comp, bne, h, h2] at hid ⊢
        exact absurd hid (by simpa using h)
      · simp [Function.comp, bne, h, h2] at hid ⊢
        exact absurd hid (by simpa using h)
  · intro b hmem hjid hbid _
    simp only [updBidsReject, updBidAccept, updJobAssign, List.map_map]
    refine List.mem_map.mpr ⟨b, hmem, ?_⟩
    have h1 : (b.id == bidId) = false := by simpa using hbid
    have h2 : (b.job_id == jobId) = true := by simpa using hjid
    simp [Function.comp, bne, h1, h2]

/-- C1 witness: `cust` accepts `contrB`'s bid on the open job; the job
ends `in_progress` assigned to contractor 21, bid 2 is accepted, and
bid 1 (pending at call time) is rejected. -/
theorem C1_accept_bid_success_witness :
    (assignContractor cust 1 2 noFail db0).1 = Except.ok () ∧
    (∀ j ∈ (assignContractor cust 1 2 noFail db0).2.jobs, j.id = 1 →
       j.status = JStatus.in_progress ∧ j.contractor_id = some bidB.contractor_id) ∧
    (∀ b ∈ (assignContractor cust 1 2 noFail db0).2.bids, b.id = 2 →
       b.status = BStatus.accepted) ∧
    (∀ b ∈ db0.bids, b.job_id = 1 → b.id ≠ 2 → b.status = BStatus.pending →
       { b with status := BStatus.rejected } ∈ (assignContractor cust 1 2 noFail db0).2.bids) :=
  C1_accept_bid_success cust 1 2 db0 jobOpen bidB (by decide) (by decide) (by decide) (by decide)

/-- C10: `assignContractor` never inspects the selected bid's status:
with the caller-is-owner and job-is-open checks passing, any bid row of
the job — whatever its status, e.g. an already-rejected one — is
accepted and its contractor assigned. -/
theorem C10_accepts_bid_of_any_status (caller : Caller) (jobId bidId : Nat) (db : DB)
    (job : Job) (bid : Bid)
    (hj : db.jobs.find? (fun j => j.id == jobId) = some job)
    (ho : job.customer_id = caller.userId)
    (hs : job.status = JStatus.open_)
    (hb : db.bids.find? (fun b => b.id == bidId && b.job_id == jobId) = some bid) :
    (assignContractor caller jobId bidId noFail db).1 = Except.ok () ∧
    { bid with status := BStatus.accepted } ∈ (assignContractor caller jobId bidId noFail db).2.bids ∧
    (∀ j ∈ (assignContractor caller jobId bidId noFail db).2.jobs, j.id = jobId →
       j.status = JStatus.in_progress ∧ j.contractor_id = some bid.contractor_id) := by
  rw [assign_ok_eq caller jobId bidId db job bid hj ho hs hb]
  have hmem : bid ∈ db.bids := List.mem_of_find?_eq_some hb
  have hband : bid.id = bidId ∧ bid.job_id = jobId := by
    have := List.find?_some hb
    simpa using this
  refine ⟨rfl, ?_, ?_⟩
  · simp only [updBidsReject, updBidAccept, updJobAssign, List.map_map]
    refine List.mem_map.mpr ⟨bid, hmem, ?_⟩
    have h1 : (bid.id == bidId) = true := by simpa using hband.1
    simp [Function.comp, bne, h1]
  · intro j hmem2 hid
    simp only [updBidsReject, updBidAccept, updJobAssign, List.mem_map] at hmem2
    obtain ⟨a, _, rfl⟩ := hmem2
    by_cases h : a.id == jobId
    · simp [h]
    · simp [h] at hid ⊢
      exact absurd hid (by simpa using h)

/-- C10 witness: a bid that is already `rejected` is accepted by
`assignContractor` and its contractor assigned. -/
theorem C10_accepts_bid_of_any_status_witness :
    (assignContractor cust 1 1 noFail (DB.mk [jobOpen] [{ bidA with status := BStatus.rejected }, bidB])).1 = Except.ok () ∧
    { { bidA with status := BStatus.rejected } with status := BStatus.accepted } ∈
      (assignContractor cust 1 1 noFail (DB.mk [jobOpen] [{ bidA with status := BStatus.rejected }, bidB])).2.bids ∧
    (∀ j ∈ (assignContractor cust 1 1 noFail (DB.mk [jobOpen] [{ bidA with status := BStatus.rejected }, bidB])).2.jobs,
       j.id = 1 → j.status = JStatus.in_progress ∧
         j.contractor_id = some ({ bidA with status := BStatus.rejected }).contractor_id) :=
  C10_accepts_bid_of_any_status cust 1 1 (DB.mk [jobOpen] [{ bidA with status := BStatus.rejected }, bidB])
    jobOpen { bidA with status := BStatus.rejected } (by decide) (by decide) (by decide) (by decide)

/-- When every row carrying the target job id is an open job with no
contractor, the rollback write undoes the assignment write exactly. -/
theorem rollback_assign_cancel (jobId cid : Nat) (db : DB)
    (hopen : ∀ j ∈ db.jobs, j.id = jobId → j.contractor_id = none ∧ j.status = JStatus.open_) :
    updJobRollback jobId (updJobAssign jobId cid db) = db := by
  unfold updJobRollback updJobAssign
  simp only [List.map_map]
  have h : ∀ j ∈ db.jobs,
      ((fun j => if j.id == jobId then { j with contractor_id := none, status := JStatus.open_ } else j) ∘
       (fun j => if j.id == jobId then { j with contractor_id := some cid, status := JStatus.in_progress } else j)) j
        = j := by
    intro j hjmem
    by_cases hid : j.id == jobId
    · obtain ⟨h1, h2⟩ := hopen j hjmem (by simpa using hid)
      simp [Function.comp, hid, ← h1, ← h2]
    · simp [Function.comp, hid]
  rw [List.map_congr_left h]
  simp

/-- C2: if the write that marks the accepted bid fails after the job
was already set to `in_progress`, `assignContractor` issues the
compensating job write — status back to `open`, contractor cleared —
and returns the error, so the failed call leaves the database exactly
as it was before the call (the jobs carrying the target id being open
with no contractor beforehand, as they always are for an open job). -/
theorem C2_failed_accept_restores_job (caller : Caller) (jobId bidId : Nat) (db : DB)
    (job : Job) (bid : Bid) (f3 : Bool)
    (hj : db.jobs.find? (fun j => j.id == jobId) = some job)
    (ho : job.customer_id = caller.userId)
    (hs : job.status = JStatus.open_)
    (hb : db.bids.find? (fun b => b.id == bidId && b.job_id == jobId) = some bid)
    (hopen : ∀ j ∈ db.jobs, j.id = jobId → j.contractor_id = none ∧ j.status = JStatus.open_) :
    assignContractor caller jobId bidId (FailFlags.mk false true false f3) db =
      (Except.error Err.updBidFailed, db) := by
  have hcancel := rollback_assign_cancel jobId bid.contractor_id db hopen
  simp [assignContractor, acceptBidCheck, acceptBidCommit, hj, hb, ho, hs, hcancel]

/-- C2 witness: on the sample database, failing the accepted-bid write
makes the call return the error with the database unchanged. -/
theorem C2_failed_accept_restores_job_witness :
    assignContractor cust 1 2 (FailFlags.mk false true false false) db0 =
      (Except.error Err.updBidFailed, db0) :=
  C2_failed_accept_restores_job cust 1 2 db0 jobOpen bidB false
    (by decide) (by decide) (by decide) (by decide) (by decide)

/-- C3: the step-1 job update of `assignContractor` is filtered by the
job id alone — it carries no status precondition — so two `acceptBid`
calls on the same open job, each passing its read-phase check before
either write phase runs, BOTH succeed: after the first call's writes
the job is already `in_progress`, yet the second call's job update is
applied anyway, and the final state reflects the second caller's bid.
This contradicts the claimed compare-and-swap enforcement under which
exactly one call succeeds and the other receives `ConflictError`. -/
theorem C3_no_cas_both_accepts_succeed :
    acceptBidCheck cust 1 1 db0 = Except.ok bidA ∧
    acceptBidCheck cust 1 2 db0 = Except.ok bidB ∧
    (acceptBidCommit 1 1 bidA noFail db0).1 = Except.ok () ∧
    ((acceptBidCommit 1 1 bidA noFail db0).2.jobs.find? (fun j => j.id == 1)) =
      some { jobOpen with contractor_id := some 20, status := JStatus.in_progress } ∧
    (acceptBidCommit 1 2 bidB noFail (acceptBidCommit 1 1 bidA noFail db0).2).1 = Except.ok () ∧
    ((acceptBidCommit 1 2 bidB noFail (acceptBidCommit 1 1 bidA noFail db0).2).2.jobs.find?
        (fun j => j.id == 1)) =
      some { jobOpen with contractor_id := some 21, status := JStatus.in_progress } :=
  ⟨rfl, rfl, rfl, rfl, rfl, rfl⟩

/-! ### Theorems about updateJob -/

/-- A completed job assigned to contractor 21. -/
def jobDone : Job := { jobOpen with status := JStatus.completed, contractor_id := some 21 }

/-- A database holding only the completed job. -/
def dbDone : DB := ⟨[jobDone], []⟩

/-- The patch `{status: completed}` with no other field. -/
def pStatusCompleted : UpdateJobInput :=
  ⟨none, none, none, none, none, some JStatus.completed, none⟩

/-- C4 counterexample: requesting `completed` again on an
already-completed job does not return `InvalidStateError` — the
transition validation only runs when the requested status differs from
the current one, so the call succeeds as a no-op write. -/
theorem C4_cex_completed_again_succeeds :
    updateJob cust 1 pStatusCompleted dbDone = (Except.ok jobDone, dbDone) := rfl

/-- C4 amended: a requested status that differs from the current status
is accepted only per the transition table — otherwise the call returns
`InvalidStateError` with the job record unchanged — while a requested
status equal to the current one bypasses the transition validation
entirely and (absent guarded field edits) succeeds as a no-op write. -/
theorem C4_amended_status_transitions (caller : Caller) (jobId : Nat) (p : UpdateJobInput)
    (db : DB) (job : Job) (s : JStatus)
    (hj : db.jobs.find? (fun j => j.id == jobId) = some job)
    (ho : job.customer_id = caller.userId)
    (hp : p.status = some s) :
    (s ≠ job.status → s ∉ validTransitions job.status →
       updateJob caller jobId p db = (Except.error Err.invalidTransition, db)) ∧
    (s = job.status → hasGuardedEdit p = false →
       updateJob caller jobId p db =
         (Except.ok (applyJobPatch job p),
          { db with jobs := db.jobs.map (fun j => if j.id == jobId then applyJobPatch j p else j) })) := by
  constructor
  · intro hne hnotin
    simp [updateJob, hj, ho, hp, hne, hnotin]
  · intro heq hge
    simp [updateJob, hj, ho, hp, heq, hge]

/-- C4 witness: asking the completed job to become `in_progress` is a
transition outside the table and fails, leaving the database as it
was. -/
theorem C4_amended_status_transitions_witness :
    updateJob cust 1 (UpdateJobInput.mk none none none none none (some JStatus.in_progress) none) dbDone =
      (Except.error Err.invalidTransition, dbDone) :=
  (C4_amended_status_transitions cust 1
      (UpdateJobInput.mk none none none none none (some JStatus.in_progress) none)
      dbDone jobDone JStatus.in_progress (by decide) (by decide) (by decide)).1
    (by decide) (by decide)

/-- An in-progress job assigned to contractor 21. -/
def jobIP : Job := { jobOpen with status := JStatus.in_progress, contractor_id := some 21 }

/-- A database holding only the in-progress job. -/
def dbIP : DB := ⟨[jobIP], []⟩

/-- The patch editing only `images`. -/
def pImagesOnly : UpdateJobInput := ⟨none, none, none, none, none, none, some ["x"]⟩

/-- C5 counterexample: the open-status guard does not cover `images`: a
patch editing only `images` on an in-progress job succeeds and changes
the record, where the claim demands `InvalidStateError` with the job
unchanged. -/
theorem C5_cex_images_edit_on_nonopen_succeeds :
    jobIP.status ≠ JStatus.open_ ∧
    updateJob cust 1 pImagesOnly dbIP =
      (Except.ok { jobIP with images := some ["x"] },
       DB.mk [{ jobIP with images := some ["x"] }] []) :=
  ⟨by decide, rfl⟩

/-- C5 amended: on a job whose status is not `open`, a patch with a
truthy edit among title, description, category, budget, location fails
with `InvalidStateError` and leaves the job unchanged; `images` is not
among the guarded fields, so a patch whose only edit is `images`
succeeds and overwrites the record even though the job is not open. -/
theorem C5_amended_edit_guard (caller : Caller) (jobId : Nat) (p : UpdateJobInput)
    (db : DB) (job : Job)
    (hj : db.jobs.find? (fun j => j.id == jobId) = some job)
    (ho : job.customer_id = caller.userId)
    (hstat : p.status = none)
    (hne : job.status ≠ JStatus.open_) :
    (hasGuardedEdit p = true →
       updateJob caller jobId p db = (Except.error Err.editNotOpen, db)) ∧
    (hasGuardedEdit p = false →
       updateJob caller jobId p db =
         (Except.ok (applyJobPatch job p),
          { db with jobs := db.jobs.map (fun j => if j.id == jobId then applyJobPatch j p else j) })) := by
  constructor
  · intro hge
    simp [updateJob, hj, ho, hstat, hne, hge]
  · intro hge
    simp [updateJob, hj, ho, hstat, hne, hge]

/-- C5 witness: a title edit on the in-progress job fails with the
open-status guard and leaves the database unchanged. -/
theorem C5_amended_edit_guard_witness :
    updateJob cust 1 (UpdateJobInput.mk (some "new") none none none none none none) dbIP =
      (Except.error Err.editNotOpen, dbIP) :=
  (C5_amended_edit_guard cust 1
      (UpdateJobInput.mk (some "new") none none none none none none)
      dbIP jobIP (by decide) (by decide) (by decide) (by decide)).1 (by decide)

/-! ### Theorems about createJob -/

/-- A create-job request whose budget is strictly negative (and hence
truthy in the source's `!budget` check). -/
def inpNegBudget : CreateJobInput := ⟨"t", "d", "c", none, some (-5), none⟩

/-- The job the source inserts for `inpNegBudget`. -/
def jobNeg : Job :=
  { id := 7, customer_id := 10, contractor_id := none, title := "t", description := "d",
    category := "c", location := none, budget := -5, images := none, status := JStatus.open_ }

/-- C6 counterexample: `createJob` never checks `budget > 0`, only
truthiness, so a customer's request with budget −5 succeeds and stores
the negative budget, where the claim demands a `ValidationError`. -/
theorem C6_cex_negative_budget_accepted :
    (createJob cust inpNegBudget (DB.mk [] []) 7).1 = Except.ok jobNeg ∧ jobNeg.budget < 0 :=
  ⟨rfl, by decide⟩

/-- C6 amended: `createJob` succeeds exactly when the caller's role is
customer and title, description, category are non-empty and the budget
is present and non-zero; there is no positivity check, so any provided
non-zero budget — negative ones included — is stored as given.  Falsy
fields give the missing-fields `ValidationError` (checked before the
role), a non-customer caller the `AuthorizationError`; a created job is
`open` with no contractor. -/
theorem C6_amended_create_job (caller : Caller) (inp : CreateJobInput) (db : DB) (newId : Nat) :
    (¬ (inp.title ≠ "" ∧ inp.description ≠ "" ∧ inp.category ≠ "" ∧ tnum inp.budget) →
       createJob caller inp db newId = (Except.error Err.missingFields, db)) ∧
    ((inp.title ≠ "" ∧ inp.description ≠ "" ∧ inp.category ≠ "" ∧ tnum inp.budget) →
       caller.role ≠ Role.customer →
       createJob caller inp db newId = (Except.error Err.notCustomer, db)) ∧
    ((inp.title ≠ "" ∧ inp.description ≠ "" ∧ inp.category ≠ "" ∧ tnum inp.budget) →
       caller.role = Role.customer →
       ∃ j, createJob caller inp db newId = (Except.ok j, { db with jobs := db.jobs ++ [j] }) ∧
         j.status = JStatus.open_ ∧ j.contractor_id = none ∧
         j.customer_id = caller.userId ∧ inp.budget = some j.budget) := by
  refine ⟨?_, ?_, ?_⟩
  · intro hmiss
    simp [createJob, hmiss]
  · intro htruthy hrole
    simp [createJob, htruthy, hrole]
  · intro htruthy hrole
    refine ⟨{ id := newId, customer_id := caller.userId, contractor_id := none,
              title := inp.title, description := inp.description, category := inp.category,
              location := inp.location, budget := inp.budget.getD 0, images := inp.images,
              status := JStatus.open_ }, ?_, rfl, rfl, rfl, ?_⟩
    · simp [createJob, htruthy, hrole]
    · obtain ⟨-, -, -, hb⟩ := htruthy
      cases hbv : inp.budget with
      | none => rw [hbv] at hb; simp [tnum] at hb
      | some q => simp [hbv]

/-- C6 witness: a complete customer request succeeds and the created
job is open, unassigned and carries the given budget. -/
theorem C6_amended_create_job_witness :
    ∃ j, createJob cust (CreateJobInput.mk "t" "d" "c" none (some 100) none) (DB.mk [] []) 7 =
        (Except.ok j, { DB.mk [] [] with jobs := [] ++ [j] }) ∧
      j.status = JStatus.open_ ∧ j.contractor_id = none ∧
      j.customer_id = cust.userId ∧ (some 100 : Option Rat) = some j.budget :=
  (C6_amended_create_job cust (CreateJobInput.mk "t" "d" "c" none (some 100) none)
    (DB.mk [] []) 7).2.2 (by decide) (by decide)

/-! ### Theorems about createBid and updateBid -/

/-- Inversion of a successful `createBid`: every check of the source
must have passed, and the inserted bid is pending, positive, owned by
the caller and attached to the requested open job. -/
theorem createBid_ok_inv (caller : Caller) (inp : CreateBidInput) (db : DB) (newId : Nat)
    (bid : Bid) (h : (createBid caller inp db newId).1 = Except.ok bid) :
    caller.role = Role.contractor ∧ bid.status = BStatus.pending ∧ 0 < bid.amount ∧
    bid.contractor_id = caller.userId ∧
    ∃ jobId job, inp.jobId = some jobId ∧ bid.job_id = jobId ∧
      db.jobs.find? (fun j => j.id == jobId) = some job ∧
      job.status = JStatus.open_ ∧ job.customer_id ≠ caller.userId ∧
      db.bids.filter (fun b => b.job_id == jobId && b.contractor_id == caller.userId) = [] := by
  unfold createBid at h
  cases hji : inp.jobId with
  | none => rw [hji] at h; simp at h
  | some jobId =>
  cases ham : inp.amount with
  | none => rw [hji, ham] at h; simp at h
  | some amount =>
  rw [hji, ham] at h
  dsimp only at h
  by_cases h1 : amount ≤ 0
  · simp [h1] at h
  rw [if_neg h1] at h
  by_cases h2 : caller.role ≠ Role.contractor
  · simp [h2] at h
  rw [if_neg h2] at h
  push_neg at h2
  cases hfind : db.jobs.find? (fun j => j.id == jobId) with
  | none => rw [hfind] at h; simp at h
  | some job =>
  rw [hfind] at h
  dsimp only at h
  by_cases h3 : job.status ≠ JStatus.open_
  · simp [h3] at h
  rw [if_neg h3] at h
  push_neg at h3
  by_cases h4 : job.customer_id = caller.userId
  · simp [h4] at h
  rw [if_neg h4] at h
  by_cases h5 : db.bids.filter (fun b => b.job_id == jobId && b.contractor_id == caller.userId) ≠ []
  · simp [h5] at h
  rw [if_neg h5] at h
  push_neg at h5
  simp only [Prod.fst, Except.ok.injEq] at h
  subst h
  exact ⟨h2, rfl, lt_of_not_le h1, rfl, jobId, job, rfl, rfl, hfind, h3, h4, h5⟩

/-- On the duplicate branch — all earlier checks passing and a bid by
this contractor on this job already present — `createBid` returns the
duplicate error and leaves the database unchanged. -/
theorem createBid_duplicate (caller : Caller) (inp : CreateBidInput) (db : DB) (newId : Nat)
    (jobId : Nat) (job : Job) (amount : Rat)
    (hji : inp.jobId = some jobId) (ham : inp.amount = some amount) (hpos : 0 < amount)
    (hrole : caller.role = Role.contractor)
    (hfind : db.jobs.find? (fun j => j.id == jobId) = some job)
    (hopen : job.status = JStatus.open_) (hnotown : job.customer_id ≠ caller.userId)
    (hdup : db.bids.filter (fun b => b.job_id == jobId && b.contractor_id == caller.userId) ≠ []) :
    createBid caller inp db newId = (Except.error Err.duplicateBid, db) := by
  unfold createBid
  rw [hji, ham]
  dsimp only
  rw [if_neg (not_le.mpr hpos)]
  rw [if_neg (by simp [hrole])]
  rw [hfind]
  dsimp only
  rw [if_neg (by simp [hopen])]
  rw [if_neg hnotown]
  rw [if_pos hdup]

/-- Either `createBid` leaves the database unchanged (an error branch)
or it appends exactly the returned bid. -/
theorem createBid_db_eq (caller : Caller) (inp : CreateBidInput) (db : DB) (newId : Nat) :
    (createBid caller inp db newId).2 = db ∨
    ∃ bid, (createBid caller inp db newId).1 = Except.ok bid ∧
      (createBid caller inp db newId).2 = { db with bids := db.bids ++ [bid] } := by
  unfold createBid
  cases inp.jobId with
  | none => exact Or.inl rfl
  | some jobId =>
  cases inp.amount with
  | none => exact Or.inl rfl
  | some amount =>
  dsimp only
  by_cases h1 : amount ≤ 0
  · rw [if_pos h1]; exact Or.inl rfl
  rw [if_neg h1]
  by_cases h2 : caller.role ≠ Role.contractor
  · rw [if_pos h2]; exact Or.inl rfl
  rw [if_neg h2]
  cases db.jobs.find? (fun j => j.id == jobId) with
  | none => exact Or.inl rfl
  | some job =>
  dsimp only
  by_cases h3 : job.status ≠ JStatus.open_
  · rw [if_pos h3]; exact Or.inl rfl
  rw [if_neg h3]
  by_cases h4 : job.customer_id = caller.userId
  · rw [if_pos h4]; exact Or.inl rfl
  rw [if_neg h4]
  by_cases h5 : db.bids.filter (fun b => b.job_id == jobId && b.contractor_id == caller.userId) ≠ []
  · rw [if_pos h5]; exact Or.inl rfl
  rw [if_neg h5]
  exact Or.inr ⟨_, rfl, rfl⟩

/-- At most one bid per (job, contractor) pair. -/
def atMostOneBidPerPair (db : DB) : Prop :=
  db.bids.Pairwise (fun b1 b2 => b1.job_id ≠ b2.job_id ∨ b1.contractor_id ≠ b2.contractor_id)

/-- C7: a successful `createBid` requires a contractor caller, an
existing open job that is not the caller's own, and no prior bid by the
caller on that job; the new bid is `pending`.  A duplicate attempt with
all earlier checks passing fails with the duplicate-bid conflict error
and leaves the database unchanged.  The at-most-one-bid-per-
(job, contractor) invariant is preserved. -/
theorem C7_create_bid_rules (caller : Caller) (inp : CreateBidInput) (db : DB) (newId : Nat) :
    (∀ bid, (createBid caller inp db newId).1 = Except.ok bid →
       caller.role = Role.contractor ∧ bid.status = BStatus.pending ∧
       ∃ jobId job, inp.jobId = some jobId ∧
         db.jobs.find? (fun j => j.id == jobId) = some job ∧
         job.status = JStatus.open_ ∧ job.customer_id ≠ caller.userId ∧
         db.bids.filter (fun b => b.job_id == jobId && b.contractor_id == caller.userId) = []) ∧
    (∀ jobId job amount, inp.jobId = some jobId → inp.amount = some amount → 0 < amount →
       caller.role = Role.contractor →
       db.jobs.find? (fun j => j.id == jobId) = some job →
       job.status = JStatus.open_ → job.customer_id ≠ caller.userId →
       db.bids.filter (fun b => b.job_id == jobId && b.contractor_id == caller.userId) ≠ [] →
       createBid caller inp db newId = (Except.error Err.duplicateBid, db)) ∧
    (atMostOneBidPerPair db → atMostOneBidPerPair (createBid caller inp db newId).2) := by
  refine ⟨?_, ?_, ?_⟩
  · intro bid h
    obtain ⟨hrole, hpend, hpos, hcid, jobId, job, hji, hbjid, hfind, hopen, hnotown, hfilter⟩ :=
      createBid_ok_inv caller inp db newId bid h
    exact ⟨hrole, hpend, jobId, job, hji, hfind, hopen, hnotown, hfilter⟩
  · intro jobId job amount hji ham hpos hrole hfind hopen hnotown hdup
    exact createBid_duplicate caller inp db newId jobId job amount hji ham hpos hrole hfind
      hopen hnotown hdup
  · intro hp
    rcases createBid_db_eq caller inp db newId with hdb | ⟨bid, hok, hdb⟩
    · rw [hdb]; exact hp
    · rw [hdb]
      obtain ⟨hrole, hpend, hpos, hcid, jobId, job, hji, hbjid, hfind, hopen, hnotown, hfilter⟩ :=
        createBid_ok_inv caller inp db newId bid hok
      unfold atMostOneBidPerPair at hp ⊢
      rw [List.pairwise_append]
      refine ⟨hp, List.pairwise_singleton _ _, ?_⟩
      intro a ha b hb
      rw [List.mem_singleton] at hb
      subst hb
      have hnp := List.filter_eq_nil_iff.mp hfilter a ha
      simp only [Bool.and_eq_true, beq_iff_eq, not_and] at hnp
      rw [hbjid, hcid]
      tauto

/-- C7 witness: `contrA` already has a bid on job 1, so a second bid by
`contrA` on job 1 fails with the duplicate error, database unchanged. -/
theorem C7_create_bid_rules_witness :
    createBid contrA (CreateBidInput.mk (some 1) (some 50) none none) db0 9 =
      (Except.error Err.duplicateBid, db0) :=
  (C7_create_bid_rules contrA (CreateBidInput.mk (some 1) (some 50) none none) db0 9).2.1
    1 jobOpen 50 (by decide) (by decide) (by decide) (by decide) (by decide) (by decide)
    (by decide) (by decide)

/-- With every check of `updateBid` passing, the call applies the patch
to the bid row. -/
theorem updateBid_ok (caller : Caller) (bidId : Nat) (p : UpdateBidInput) (db : DB)
    (eb : Bid) (job : Job)
    (hfb : db.bids.find? (fun b => b.id == bidId) = some eb)
    (hfj : db.jobs.find? (fun j => j.id == eb.job_id) = some job)
    (howner : eb.contractor_id = caller.userId)
    (hpend : eb.status = BStatus.pending)
    (hopen : job.status = JStatus.open_) :
    updateBid caller bidId p db =
      (Except.ok (applyBidPatch eb p),
       { db with bids := db.bids.map (fun b => if b.id == bidId then applyBidPatch b p else b) }) := by
  simp [updateBid, hfb, hfj, howner, hpend, hopen]

/-- A pending bid's amount replaced by −5 through `updateBid`. -/
def pNegAmount : UpdateBidInput := ⟨some (-5), none, none⟩

/-- C9 counterexample: `updateBid` applies a truthy amount with no
validation, so the pending bid on the open job ends up stored with the
negative amount −5, violating the positive-amount invariant the claim
states every bid operation preserves. -/
theorem C9_cex_negative_amount_stored :
    (updateBid contrA 1 pNegAmount db0).1 = Except.ok { bidA with amount := -5 } ∧
    ({ bidA with amount := -5 } : Bid) ∈ (updateBid contrA 1 pNegAmount db0).2.bids ∧
    ¬ (0 < ({ bidA with amount := -5 } : Bid).amount) :=
  ⟨rfl, by decide, by decide⟩

/-- C9 amended: `createBid` does validate — a created bid always has a
strictly positive amount — but `updateBid` applies any provided
(truthy) amount unchecked: under the update preconditions (caller owns
the pending bid of an open job) the stored amount becomes exactly the
given value, whatever its sign, so the positivity invariant is not
preserved by `updateBid`. -/
theorem C9_amended_amount_validation :
    (∀ caller inp db newId bid,
       (createBid caller inp db newId).1 = Except.ok bid → 0 < bid.amount) ∧
    (∀ caller bidId p db eb job a,
       db.bids.find? (fun b => b.id == bidId) = some eb →
       db.jobs.find? (fun j => j.id == eb.job_id) = some job →
       eb.contractor_id = caller.userId →
       eb.status = BStatus.pending →
       job.status = JStatus.open_ →
       p.amount = some a →
       (updateBid caller bidId p db).1 = Except.ok (applyBidPatch eb p) ∧
         (applyBidPatch eb p).amount = a) := by
  constructor
  · intro caller inp db newId bid h
    exact (createBid_ok_inv caller inp db newId bid h).2.2.1
  · intro caller bidId p db eb job a hfb hfj howner hpend hopen ham
    rw [updateBid_ok caller bidId p db eb job hfb hfj howner hpend hopen]
    exact ⟨rfl, by simp [applyBidPatch, ham]⟩

/-- C9 witness: `createBid` accepts amount 50 (positive stored) and
`updateBid` stores the provided amount 7 verbatim. -/
theorem C9_amended_amount_validation_witness :
    (updateBid contrA 1 (UpdateBidInput.mk (some 7) none none) db0).1 =
      Except.ok (applyBidPatch bidA (UpdateBidInput.mk (some 7) none none)) ∧
    (applyBidPatch bidA (UpdateBidInput.mk (some 7) none none)).amount = 7 :=
  C9_amended_amount_validation.2 contrA 1 (UpdateBidInput.mk (some 7) none none) db0 bidA
    jobOpen 7 (by decide) (by decide) (by decide) (by decide) (by decide) (by decide)

/-! ### Theorems about bid visibility -/

/-- C8 counterexample: a viewer with role customer who is NOT the job's
owning customer receives every bid in full from the job-detail
endpoint — amounts included — where the claim says every other
contractor's bid must have amount, proposal and estimated_days
nulled. -/
theorem C8_cex_nonowner_customer_sees_full_bids :
    otherCust.userId ≠ jobOpen.customer_id ∧
    getJobByIdBids otherCust 1 db0 = Except.ok [fullView bidA, fullView bidB] ∧
    (fullView bidA).amount = some 90 ∧ (fullView bidB).amount = some 80 :=
  ⟨by decide, rfl, rfl, rfl⟩

/-- C8 amended: the bid-list endpoint redacts for every non-owner
viewer (full detail only for the viewer's own bid, others' amount,
proposal and estimated_days nulled).  The job-detail endpoint applies
the same redaction only when the viewer's role is contractor and the
viewer is not the assigned contractor; a non-owner viewer with role
customer, or the assigned contractor, receives every bid in full. -/
theorem C8_amended_bid_visibility (caller : Caller) (jobId : Nat) (db : DB) (job : Job)
    (hj : db.jobs.find? (fun j => j.id == jobId) = some job)
    (hnotOwner : job.customer_id ≠ caller.userId) :
    (getBidsForJob caller jobId db =
       Except.ok ((db.bids.filter (fun b => b.job_id == jobId)).map
         (fun b => if b.contractor_id = caller.userId then fullView b else redactedView b))) ∧
    (caller.role = Role.contractor → job.contractor_id ≠ some caller.userId →
       getJobByIdBids caller jobId db =
         Except.ok ((db.bids.filter (fun b => b.job_id == jobId)).map
           (fun b => if b.contractor_id = caller.userId then fullView b else redactedView b))) ∧
    ((caller.role = Role.customer ∨ job.contractor_id = some caller.userId) →
       getJobByIdBids caller jobId db =
         Except.ok ((db.bids.filter (fun b => b.job_id == jobId)).map fullView)) ∧
    (∀ b, (redactedView b).amount = none ∧ (redactedView b).proposal = none ∧
       (redactedView b).estimated_days = none) := by
  refine ⟨?_, ?_, ?_, ?_⟩
  · simp [getBidsForJob, hj, hnotOwner]
  · intro hrole hnotAssigned
    simp [getJobByIdBids, hj, hnotOwner, hrole, hnotAssigned]
  · intro hcase
    rcases hcase with hrole | hassigned
    · have : caller.role ≠ Role.contractor := by simp [hrole]
      simp [getJobByIdBids, hj, this]
    · simp [getJobByIdBids, hj, hassigned]
  · intro b
    exact ⟨rfl, rfl, rfl⟩

/-- C8 witness: contractor `contrA` viewing job 1's bid list gets their
own bid in full and `contrB`'s bid redacted. -/
theorem C8_amended_bid_visibility_witness :
    getBidsForJob contrA 1 db0 =
      Except.ok ((db0.bids.filter (fun b => b.job_id == 1)).map
        (fun b => if b.contractor_id = contrA.userId then fullView b else redactedView b)) :=
  (C8_amended_bid_visibility contrA 1 db0 jobOpen (by decide) (by decide)).1

end HomeFix
